import Mathlib

/-!
Shallow embedding of the TypeSnake game core (snake entity, board math,
power-up manager, validator, game-state store, and the engine's tick,
restart and power-up-context operations), together with theorems checking
the specification's claims against it.

Modelling conventions:
* JavaScript numbers that hold integers are modelled as `Int`; the JS `%`
  operator keeps the sign of the dividend, which is `Int.tmod`.
* `Math.random()` draws are modelled by explicit oracle data (`Rng`):
  a list of successive position candidates for each sampling loop and a
  Boolean outcome for each probability roll (`MathUtils.shouldHappen`).
* Timers are modelled as state: the recurring game interval is an
  `Option (Job × Int)` (scheduled routine and period), the blink interval
  a Boolean, and the one-shot effect-expiry timeouts a pending-count.
  Rendering is pure output and is not part of the state.
-/

namespace TypeSnake

/-- Positions are integer pairs `[x, y]` (`type Position = [number, number]`). -/
abbrev Position := Int × Int

/-- MathUtils.positionsEqual: exact component equality. -/
def positionsEqual (p q : Position) : Bool :=
  p.1 == q.1 && p.2 == q.2

/-- MathUtils.wrapPosition: `normalize = (pos, limit) => (pos + limit) % limit`
per axis, where `%` is the JavaScript remainder (sign of the dividend),
i.e. `Int.tmod`. -/
def wrapPosition (p : Position) (boardWidth boardHeight : Int) : Position :=
  ((p.1 + boardWidth).tmod boardWidth, (p.2 + boardHeight).tmod boardHeight)

/-- MathUtils.isInRange: both axis absolute differences at most `range`
(Chebyshev box). -/
def isInRange (centerPos targetPos : Position) (range : Int) : Bool :=
  decide (|centerPos.1 - targetPos.1| ≤ range) &&
    decide (|centerPos.2 - targetPos.2| ≤ range)

/-- PositionValidator.isPositionOccupied: linear scan with `positionsEqual`. -/
def isPositionOccupied (position : Position) (occupiedPositions : List Position) : Bool :=
  occupiedPositions.any (fun occupiedPosition => positionsEqual position occupiedPosition)

/-- PositionValidator.generateValidPosition: repeatedly draw a random position
(successive draws are the `cands` oracle list) until one is unoccupied or the
attempt budget is exhausted; `none` on exhaustion. The candidate list is
consumed one entry per attempt, so a list at least `maxAttempts` long models
the loop exactly. `PowerUpManager.getValidPosition` is the same loop verbatim
and is modelled by this same function. -/
def generateValidPosition (occupiedPositions : List Position) :
    Nat → List Position → Option Position
  | 0, _ => none
  | _ + 1, [] => none
  | n + 1, c :: rest =>
    if isPositionOccupied c occupiedPositions then
      generateValidPosition occupiedPositions n rest
    else
      some c

/-! Snake entity (`Snake.ts`). The segment list has the head at index 0. -/

/-- Snake.getHead: `segments[0]!` (the code assumes a non-empty snake). -/
def snakeHead (segments : List Position) : Position :=
  segments.headD (0, 0)

/-- Snake.setDirection: the new direction is rejected (current kept) when the
snake has more than one segment and the new direction is the exact
componentwise negation of the current one. -/
def snakeSetDirection (segments : List Position) (direction newDirection : Position) :
    Position :=
  if segments.length > 1 && positionsEqual newDirection (-direction.1, -direction.2) then
    direction
  else
    newDirection

/-- Snake.move, new-head part: head plus direction, wrapped onto the board. -/
def tickHeadTarget (segments : List Position) (direction : Position)
    (boardWidth boardHeight : Int) : Position :=
  let hd := snakeHead segments
  wrapPosition (hd.1 + direction.1, hd.2 + direction.2) boardWidth boardHeight

/-- Snake.move, segment part: the new head is unshifted and the last element
of the extended list is popped. -/
def movedSegments (segments : List Position) (direction : Position)
    (boardWidth boardHeight : Int) : List Position :=
  (tickHeadTarget segments direction boardWidth boardHeight :: segments).dropLast

/-- Snake.move, return value: the popped tail of the extended list. -/
def vacatedTail (segments : List Position) (direction : Position)
    (boardWidth boardHeight : Int) : Position :=
  (tickHeadTarget segments direction boardWidth boardHeight :: segments).getLastD (0, 0)

/-- Snake.grow: re-append a previously popped tail position. -/
def snakeGrow (segments : List Position) (tailPosition : Position) : List Position :=
  segments ++ [tailPosition]

/-- Snake.checkSelfCollision: head equals some segment at index at least 1. -/
def checkSelfCollision (segments : List Position) : Bool :=
  segments.tail.any (fun segment => positionsEqual (snakeHead segments) segment)

/-- Modelled from the spec: `Snake.teleportTo(pos)` is not under `src/` (only
its caller `GameEngine.teleportSnake` is); per the spec it "replaces head
position in place without affecting the rest of the body". -/
def snakeTeleportTo (segments : List Position) (pos : Position) : List Position :=
  match segments with
  | [] => []
  | _ :: rest => pos :: rest

/-! Power-ups (`PowerUpManager.ts`, `PowerUpStrategies.ts`). -/

/-- PowerUpType from `types/global.ts`. -/
inductive PowerUpType where
  | magnet | slowMotion | bonus | invincibility | teleport | boost | freeze
deriving DecidableEq, Repr

/-- PowerUp: board-resident power-up (`createdAt`, a wall-clock stamp never
read by the core logic, is outside the model). -/
structure PowerUp where
  position : Position
  type : PowerUpType
deriving DecidableEq, Repr

/-- PowerUpManager.addPowerUp: no-op when an instance of the same type is
already tracked, otherwise pushed at the end. -/
def addPowerUp (activePowerUps : List PowerUp) (powerUp : PowerUp) : List PowerUp :=
  if activePowerUps.any (fun p => decide (p.type = powerUp.type)) then
    activePowerUps
  else
    activePowerUps ++ [powerUp]

/-- PowerUpManager.removePowerUp, list effect: splice out the first tracked
power-up of the given type. -/
def removePowerUp (activePowerUps : List PowerUp) (type : PowerUpType) : List PowerUp :=
  activePowerUps.eraseP (fun p => decide (p.type = type))

/-- PowerUpManager.findPowerUpAtPosition: first tracked power-up at the exact
position, else none. -/
def findPowerUpAtPosition (activePowerUps : List PowerUp) (position : Position) :
    Option PowerUp :=
  activePowerUps.find? (fun p => positionsEqual p.position position)

/-- PowerUpManager.clearAllPowerUps. -/
def clearAllPowerUps (_activePowerUps : List PowerUp) : List PowerUp :=
  []

/-- The manager's tracked-type-uniqueness invariant: pairwise distinct types. -/
def uniqueTypes (powerUps : List PowerUp) : Prop :=
  (powerUps.map PowerUp.type).Nodup

/-! Bridging lemmas between the Boolean code predicates and propositions. -/

theorem positionsEqual_iff {p q : Position} : positionsEqual p q = true ↔ p = q := by
  cases p; cases q
  simp [positionsEqual, Prod.ext_iff]

theorem isPositionOccupied_iff {c : Position} {occ : List Position} :
    isPositionOccupied c occ = true ↔ c ∈ occ := by
  simp [isPositionOccupied, List.any_eq_true, positionsEqual_iff]

theorem isPositionOccupied_eq_false {c : Position} {occ : List Position} :
    isPositionOccupied c occ = false ↔ c ∉ occ := by
  rw [← Bool.not_eq_true, not_iff_not]
  exact isPositionOccupied_iff

/-- Core property of the bounded-retry sampler: a returned position is never
in the occupied set. -/
theorem generateValidPosition_not_mem {occ : List Position} :
    ∀ {n : Nat} {cands : List Position} {p : Position},
      generateValidPosition occ n cands = some p → p ∉ occ := by
  intro n
  induction n with
  | zero => intro cands p h; simp [generateValidPosition] at h
  | succ n ih =>
    intro cands p h
    match cands with
    | [] => simp [generateValidPosition] at h
    | c :: rest =>
      rw [generateValidPosition] at h
      by_cases hc : isPositionOccupied c occ = true
      · rw [if_pos hc] at h
        exact ih h
      · rw [if_neg hc] at h
        cases h
        exact isPositionOccupied_eq_false.mp (Bool.not_eq_true _ ▸ hc)

/-! Configuration, state store and engine state
(`defaults.ts`, `GameStateService.ts`, `GameEngine.ts`). -/

/-- IPowerUpSettings. The `probability` field only feeds the random draw
`MathUtils.shouldHappen(probability)`, which is modelled by the Boolean
oracle `Rng.rolls`, so the numeric value is outside the model. -/
structure PowerUpSettings where
  enabled : Bool
  duration : Int
deriving DecidableEq, Repr

/-- The engine-relevant slice of IGameConfig: board dimensions, game
settings, per-type power-up settings in the config object's entry order
(`Object.entries` iterates insertion order), and the background icon.
`updateTime` is the value of `calculateUpdateTime()` (difficulty lookup). -/
structure GameConfig where
  width : Int
  height : Int
  scorePerApple : Int
  expandedRange : Int
  backgroundIcon : String
  updateTime : Int
  powerUps : List (PowerUpType × PowerUpSettings)

/-- BoardUtils.getTotalCells, used as the attempt budget `w * h`. -/
def boardCells (cfg : GameConfig) : Nat :=
  cfg.width.toNat * cfg.height.toNat

/-- BoardUtils.getCenter: `Math.floor` of half of each dimension. -/
def getCenter (cfg : GameConfig) : Position :=
  (cfg.width / 2, cfg.height / 2)

/-- Oracle for every random draw a tick can make: apple-respawn candidates,
apple fallback candidates, the probability-roll outcome and spawn candidates
for each power-up type, and teleport candidates. -/
structure Rng where
  appleCands : List Position
  appleFallback : List Position
  rolls : PowerUpType → Bool
  spawnCands : PowerUpType → List Position
  teleportCands : List Position

/-- Apple.respawn: take the validator's result; on exhaustion fall back to
`generateNewPosition()`, an unchecked draw (validator with empty occupied
list), defaulting to `[0, 0]`. -/
def appleRespawn (cfg : GameConfig) (rng : Rng) (occupiedPositions : List Position) :
    Position :=
  match generateValidPosition occupiedPositions (boardCells cfg) rng.appleCands with
  | some p => p
  | none =>
    (generateValidPosition [] (boardCells cfg) rng.appleFallback).getD (0, 0)

/-- The IGameState snapshot held by GameStateService (per `types/global.ts`,
with `activePowerUps` records kept as their types, matching the
`addActivePowerUp` storage). -/
structure GameState where
  snake : List Position
  apple : Position
  score : Int
  powerUps : List PowerUp
  isGameOver : Bool
  isPaused : Bool
  activePowerUps : List PowerUpType
deriving DecidableEq, Repr

/-- GameStateService.setGameOver (`GameStateService.ts:89-92`): the body
assigns `this.state.isPaused = isPaused`; the `isGameOver` field is never
written. -/
def setGameOver (state : GameState) (isPaused : Bool) : GameState :=
  { state with isPaused := isPaused }

/-- GameStateService.addActivePowerUp: push the type unless already listed. -/
def addActivePowerUp (state : GameState) (powerUpType : PowerUpType) : GameState :=
  if powerUpType ∈ state.activePowerUps then
    state
  else
    { state with activePowerUps := state.activePowerUps ++ [powerUpType] }

/-- GameStateService.reset with the snake and apple supplied by the engine:
everything else returns to its initial value. -/
def stateReset (snake : List Position) (apple : Position) : GameState :=
  { snake := snake, apple := apple, score := 0, powerUps := [],
    isGameOver := false, isPaused := false, activePowerUps := [] }

/-- The routine a recurring timer runs: the engine's own `update`, or some
strategy-supplied callback (identified by a tag, since the engine never
inspects it). -/
inductive Job where
  | update
  | external (id : Nat)
deriving DecidableEq, Repr

/-- The engine's mutable state (`GameEngine.ts` fields): snake entity,
apple entity, manager-tracked board power-ups, the state store, the
context-mutable settings, the effect flags, and the timers
(`gameInterval` holds the scheduled routine and its period;
`effectTimeouts` counts pending effect-expiry setTimeout callbacks). -/
structure Engine where
  segments : List Position
  direction : Position
  apple : Position
  boardPowerUps : List PowerUp
  store : GameState
  range : Bool
  backgroundIcon : String
  scorePerApple : Int
  updateTime : Int
  invincibilityActive : Bool
  gameFrozen : Bool
  gameInterval : Option (Job × Int)
  blinkRunning : Bool
  effectTimeouts : Nat
deriving DecidableEq, Repr

/-- GameEngine.isInRange: exact equality under the regular range policy
(`range = false`), Chebyshev box under the expanded one (`range = true`). -/
def engineInRange (cfg : GameConfig) (range : Bool) (pos1 pos2 : Position) : Bool :=
  if range then isInRange pos1 pos2 cfg.expandedRange else positionsEqual pos1 pos2

/-- GameEngine.stopGameLoop: cancel the game interval and the blink interval. -/
def stopGameLoop (s : Engine) : Engine :=
  { s with gameInterval := none, blinkRunning := false }

/-- GameEngine.startGameLoop: no-op when an interval is already running;
otherwise schedule `update` at the current update time and start blinking. -/
def startGameLoop (s : Engine) : Engine :=
  if s.gameInterval.isSome then
    s
  else
    { s with gameInterval := some (Job.update, s.updateTime), blinkRunning := true }

/-- GameEngine context method `setInterval(callback, time)`
(`GameEngine.ts:1012-1021`): stops the loop, syncs `currentUpdateTime`, and
schedules the engine's own `update` at the given period — the supplied
callback is dropped. -/
def ctxSetInterval (_callback : Job) (time : Int) (s : Engine) : Engine :=
  let s := stopGameLoop s
  { s with updateTime := time, gameInterval := some (Job.update, time) }

/-- GameEngine context method `clearInterval()`. -/
def ctxClearInterval (s : Engine) : Engine :=
  stopGameLoop s

/-- Duration the eaten power-up reports: the teleport strategy always answers
0; every timed strategy answers the duration the factory installed from the
type's settings (2000 when the settings supply none). -/
def powerUpDuration (cfg : GameConfig) (t : PowerUpType) : Int :=
  if t = PowerUpType.teleport then
    0
  else
    ((cfg.powerUps.find? (fun e => decide (e.1 = t))).map (fun e => e.2.duration)).getD 2000

/-- GameEngine.teleportSnake: gather occupied cells (current segments, the
apple, and the power-up list of the last published store snapshot), draw up
to `max(100, w*h)` candidates for a free cell, and fall back to the current
head; then `Snake.teleportTo` the chosen cell. -/
def teleportSnake (cfg : GameConfig) (rng : Rng) (s : Engine) : Engine :=
  let occupiedPositions :=
    s.segments ++ [s.apple] ++ s.store.powerUps.map PowerUp.position
  let maxAttempts := max 100 (boardCells cfg)
  let newPosition :=
    match generateValidPosition occupiedPositions maxAttempts rng.teleportCands with
    | some p => p
    | none => snakeHead s.segments
  { s with segments := snakeTeleportTo s.segments newPosition }

/-- Effect of `strategy.apply(context)` on the engine state, per strategy
type (`PowerUpStrategies.ts`). The strategies' own expiry setTimeout and the
bonus strategy's icon-flash interval live inside the strategy objects and
only matter at removal time, which no tick performs, so they stay outside
the state; `remove` effects are likewise not modelled here. -/
def applyStrategy (cfg : GameConfig) (rng : Rng) (t : PowerUpType) (s : Engine) : Engine :=
  match t with
  | PowerUpType.magnet => { s with range := true }
  | PowerUpType.slowMotion =>
    let newUpdateTime := s.updateTime + 200
    ctxSetInterval (Job.external 0) newUpdateTime (ctxClearInterval s)
  | PowerUpType.bonus => { s with scorePerApple := 15 }
  | PowerUpType.invincibility => { s with invincibilityActive := true }
  | PowerUpType.teleport => teleportSnake cfg rng s
  | PowerUpType.boost =>
    let newUpdateTime := max 30 (s.updateTime - 100)
    ctxSetInterval (Job.external 0) newUpdateTime (ctxClearInterval s)
  | PowerUpType.freeze => { s with gameFrozen := true }

/-- PowerUpManager.generateRandomPowerUps: walk the config entries; for each
enabled type whose probability roll succeeds, place an instance at a
validated free cell (skipping the type when the validator exhausts), and
extend the working occupied list so later placements avoid it. -/
def generateRandomPowerUps (cfg : GameConfig) (rng : Rng) :
    List (PowerUpType × PowerUpSettings) → List Position → List PowerUp
  | [], _ => []
  | (t, settings) :: rest, occupiedPositions =>
    if settings.enabled && rng.rolls t then
      match generateValidPosition occupiedPositions (boardCells cfg) (rng.spawnCands t) with
      | some pos =>
        ⟨pos, t⟩ :: generateRandomPowerUps cfg rng rest (occupiedPositions ++ [pos])
      | none => generateRandomPowerUps cfg rng rest occupiedPositions
    else
      generateRandomPowerUps cfg rng rest occupiedPositions

/-- GameEngine.eatApple: grow with the vacated tail, add the current
score-per-apple, respawn the apple avoiding snake plus board power-ups, roll
for new power-up spawns against the same occupied list (which never learns
the apple's new cell), and add them through the manager. -/
def eatApple (cfg : GameConfig) (rng : Rng) (tailPosition : Position) (s : Engine) :
    Engine :=
  let segments := snakeGrow s.segments tailPosition
  let occupiedPositions := segments ++ s.boardPowerUps.map PowerUp.position
  let newApple := appleRespawn cfg rng occupiedPositions
  let newPowerUps := generateRandomPowerUps cfg rng cfg.powerUps occupiedPositions
  { s with
    segments := segments,
    apple := newApple,
    store := { s.store with score := s.store.score + s.scorePerApple },
    boardPowerUps := newPowerUps.foldl addPowerUp s.boardPowerUps }

/-- GameEngine.eatPowerUp: grow with the vacated tail; when the strategy
reports a positive duration, record the active effect and schedule its
expiry timeout; apply the strategy; remove the power-up from the board. -/
def eatPowerUp (cfg : GameConfig) (rng : Rng) (powerUp : PowerUp)
    (tailPosition : Position) (s : Engine) : Engine :=
  let s := { s with segments := snakeGrow s.segments tailPosition }
  let duration := powerUpDuration cfg powerUp.type
  let s :=
    if 0 < duration then
      { s with
        store := addActivePowerUp s.store powerUp.type,
        effectTimeouts := s.effectTimeouts + 1 }
    else
      s
  let s := applyStrategy cfg rng powerUp.type s
  { s with boardPowerUps := removePowerUp s.boardPowerUps powerUp.type }

/-- GameEngine.gameOver: `setGameOver(true)` on the store, then stop the
loop (rendering is output only). -/
def engineGameOver (s : Engine) : Engine :=
  stopGameLoop { s with store := setGameOver s.store true }

/-- GameEngine.updateGameState: publish snake, apple and board power-ups
into the store. -/
def updateGameState (s : Engine) : Engine :=
  { s with
    store := { s.store with
      snake := s.segments, apple := s.apple, powerUps := s.boardPowerUps } }

/-- GameEngine.update, eating block (`GameEngine.ts:709-732`): with the
snake already moved, test the apple under the current range policy, then a
power-up found at the head, eat what is in range, and publish the state. -/
def tickEat (cfg : GameConfig) (rng : Rng) (tailPosition : Position) (s : Engine) :
    Engine :=
  let head := snakeHead s.segments
  let s1 :=
    if engineInRange cfg s.range head s.apple then
      eatApple cfg rng tailPosition s
    else
      s
  let s2 :=
    match findPowerUpAtPosition s1.boardPowerUps head with
    | some powerUp =>
      if engineInRange cfg s1.range head powerUp.position then
        eatPowerUp cfg rng powerUp tailPosition s1
      else
        s1
    | none => s1
  updateGameState s2

/-- GameEngine.update, simulation block (`GameEngine.ts:697-732`): move the
snake, check self-collision unless invincible (game over on hit), then eat. -/
def tickSimulate (cfg : GameConfig) (rng : Rng) (s : Engine) : Engine :=
  let tailPosition := vacatedTail s.segments s.direction cfg.width cfg.height
  let moved := movedSegments s.segments s.direction cfg.width cfg.height
  let s := { s with segments := moved }
  if !s.invincibilityActive && checkSelfCollision moved then
    engineGameOver s
  else
    tickEat cfg rng tailPosition s

/-- GameEngine.update (`GameEngine.ts:683-733`): skip when paused or
game-over; when frozen only re-render; otherwise simulate the tick. -/
def update (cfg : GameConfig) (rng : Rng) (s : Engine) : Engine :=
  if s.store.isPaused || s.store.isGameOver then
    s
  else if s.gameFrozen then
    s
  else
    tickSimulate cfg rng s

/-- GameEngine.restart (`GameEngine.ts:535-556`): stop the loop, reset the
snake to the board center, respawn the apple avoiding the snake, clear the
board power-ups, reset the store, reset range, background icon and
score-per-apple to the config values, then `start()` (render and start the
loop again at the current update time). No other engine field is touched. -/
def restart (cfg : GameConfig) (rng : Rng) (s : Engine) : Engine :=
  let s := stopGameLoop s
  let center := getCenter cfg
  let segments := [center]
  let newApple := appleRespawn cfg rng segments
  let s :=
    { s with
      segments := segments,
      direction := (0, -1),
      apple := newApple,
      boardPowerUps := [],
      store := stateReset segments newApple,
      range := false,
      backgroundIcon := cfg.backgroundIcon,
      scorePerApple := cfg.scorePerApple }
  startGameLoop s

/-! Shape lemmas for the move/grow cycle and the power-up helpers. -/

theorem movedSegments_eq (segments : List Position) (d : Position) (w h : Int)
    (hne : segments ≠ []) :
    movedSegments segments d w h =
      tickHeadTarget segments d w h :: segments.dropLast := by
  unfold movedSegments
  exact List.dropLast_cons_of_ne_nil hne

theorem grow_moved_eq (segments : List Position) (d : Position) (w h : Int) :
    snakeGrow (movedSegments segments d w h) (vacatedTail segments d w h) =
      tickHeadTarget segments d w h :: segments := by
  unfold snakeGrow movedSegments vacatedTail
  rw [List.getLastD_eq_getLast? , List.getLast?_eq_getLast _ (List.cons_ne_nil _ _),
    Option.getD_some]
  exact List.dropLast_concat_getLast (List.cons_ne_nil _ _)

theorem snakeHead_movedSegments (segments : List Position) (d : Position) (w h : Int)
    (hne : segments ≠ []) :
    snakeHead (movedSegments segments d w h) = tickHeadTarget segments d w h := by
  rw [movedSegments_eq _ _ _ _ hne]
  rfl

theorem checkSelfCollision_eq_false (segments : List Position)
    (h : ∀ seg ∈ segments.tail, snakeHead segments ≠ seg) :
    checkSelfCollision segments = false := by
  rw [← Bool.not_eq_true, checkSelfCollision, List.any_eq_true]
  push_neg
  intro seg hseg
  exact fun he => h seg hseg (positionsEqual_iff.mp he)

theorem checkSelfCollision_moved_false (segments : List Position) (d : Position)
    (w h : Int) (hne : segments ≠ [])
    (hhead : tickHeadTarget segments d w h ∉ segments) :
    checkSelfCollision (movedSegments segments d w h) = false := by
  rw [movedSegments_eq _ _ _ _ hne]
  apply checkSelfCollision_eq_false
  intro seg hseg heq
  have hnh : tickHeadTarget segments d w h = seg := heq
  exact hhead (hnh ▸ (List.dropLast_sublist segments).subset hseg)

theorem findPowerUpAtPosition_eq_none {l : List PowerUp} {pos : Position}
    (h : ∀ pu ∈ l, pu.position ≠ pos) : findPowerUpAtPosition l pos = none := by
  rw [findPowerUpAtPosition, List.find?_eq_none]
  intro pu hpu
  simp only [positionsEqual_iff]
  exact h pu hpu

theorem findPowerUpAtPosition_eq_some {l : List PowerUp} {pos : Position} {pu : PowerUp}
    (h : findPowerUpAtPosition l pos = some pu) : pu ∈ l ∧ pu.position = pos := by
  have h' : l.find? (fun p => positionsEqual p.position pos) = some pu := h
  have hp : positionsEqual pu.position pos = true := by
    have := List.find?_some h'
    simpa using this
  exact ⟨List.mem_of_find?_eq_some h', positionsEqual_iff.mp hp⟩

theorem mem_foldl_addPowerUp :
    ∀ (news : List PowerUp) (base : List PowerUp) (x : PowerUp),
      x ∈ news.foldl addPowerUp base → x ∈ base ∨ x ∈ news := by
  intro news
  induction news with
  | nil => intro base x hx; exact Or.inl hx
  | cons n ns ih =>
    intro base x hx
    rcases ih (addPowerUp base n) x hx with hb | hns
    · rw [addPowerUp] at hb
      split at hb
      · exact Or.inl hb
      · rcases List.mem_append.mp hb with h | h
        · exact Or.inl h
        · exact Or.inr (List.mem_cons.mpr (Or.inl (List.mem_singleton.mp h)))
    · exact Or.inr (List.mem_cons.mpr (Or.inr hns))

theorem generateRandomPowerUps_position_not_mem (cfg : GameConfig) (rng : Rng) :
    ∀ (entries : List (PowerUpType × PowerUpSettings)) (occ : List Position)
      (pu : PowerUp), pu ∈ generateRandomPowerUps cfg rng entries occ →
      pu.position ∉ occ := by
  intro entries
  induction entries with
  | nil => intro occ pu hpu; simp [generateRandomPowerUps] at hpu
  | cons e rest ih =>
    intro occ pu hpu
    rw [generateRandomPowerUps] at hpu
    split at hpu
    · split at hpu
      next pos hpos =>
        rcases List.mem_cons.mp hpu with rfl | hmem
        · exact generateValidPosition_not_mem hpos
        · intro hocc
          exact ih (occ ++ [pos]) pu hmem (List.mem_append.mpr (Or.inl hocc))
      next => exact ih occ pu hpu
    · exact ih occ pu hpu

/-! Field-preservation lemmas for the tick's sub-steps. -/

theorem eatApple_fields (cfg : GameConfig) (rng : Rng) (t : Position) (s : Engine) :
    (eatApple cfg rng t s).range = s.range ∧
    (eatApple cfg rng t s).segments = snakeGrow s.segments t ∧
    (eatApple cfg rng t s).boardPowerUps =
      (generateRandomPowerUps cfg rng cfg.powerUps
        (snakeGrow s.segments t ++ s.boardPowerUps.map PowerUp.position)).foldl
        addPowerUp s.boardPowerUps := by
  refine ⟨rfl, rfl, rfl⟩

theorem updateGameState_fields (s : Engine) :
    (updateGameState s).segments = s.segments ∧
    (updateGameState s).store.snake = s.segments := by
  exact ⟨rfl, rfl⟩

theorem applyStrategy_segments (cfg : GameConfig) (rng : Rng) (t : PowerUpType)
    (s : Engine) (h : t ≠ PowerUpType.teleport) :
    (applyStrategy cfg rng t s).segments = s.segments := by
  cases t <;> first
    | rfl
    | exact absurd rfl h

theorem teleportSnake_segments (cfg : GameConfig) (rng : Rng) (s : Engine)
    (hne : s.segments ≠ []) :
    (teleportSnake cfg rng s).segments = s.segments ∨
      ∃ p : Position,
        (teleportSnake cfg rng s).segments = p :: s.segments.tail ∧
        p ∉ s.segments ∧ p ≠ s.apple ∧
        ∀ pu ∈ s.store.powerUps, p ≠ pu.position := by
  obtain ⟨a, rest, h⟩ := List.exists_cons_of_ne_nil hne
  simp only [teleportSnake]
  cases hm : generateValidPosition
      (s.segments ++ [s.apple] ++ s.store.powerUps.map PowerUp.position)
      (max 100 (boardCells cfg)) rng.teleportCands with
  | none =>
    left
    rw [h]
    rfl
  | some p =>
    have hraw := generateValidPosition_not_mem hm
    refine Or.inr ⟨p, ?_, ?_, ?_, ?_⟩
    · rw [h]
      rfl
    · exact fun hp =>
        hraw (List.mem_append.mpr (Or.inl (List.mem_append.mpr (Or.inl hp))))
    · exact fun hp =>
        hraw (List.mem_append.mpr (Or.inl (List.mem_append.mpr (Or.inr (by simp [hp])))))
    · intro pu hpu hp
      exact hraw (List.mem_append.mpr (Or.inr (List.mem_map.mpr ⟨pu, hpu, hp.symm⟩)))

theorem teleportSnake_nodup (cfg : GameConfig) (rng : Rng) (s : Engine)
    (hne : s.segments ≠ []) (hnd : s.segments.Nodup) :
    (teleportSnake cfg rng s).segments.Nodup := by
  rcases teleportSnake_segments cfg rng s hne with h | ⟨p, hseg, hp, -, -⟩
  · rw [h]; exact hnd
  · rw [hseg]
    refine List.Nodup.cons ?_ ((List.tail_sublist s.segments).nodup hnd)
    intro hmem
    exact hp ((List.tail_sublist s.segments).subset hmem)

theorem applyStrategy_nodup (cfg : GameConfig) (rng : Rng) (t : PowerUpType)
    (s : Engine) (hne : s.segments ≠ []) (hnd : s.segments.Nodup) :
    (applyStrategy cfg rng t s).segments.Nodup := by
  by_cases h : t = PowerUpType.teleport
  · subst h
    exact teleportSnake_nodup cfg rng s hne hnd
  · rw [applyStrategy_segments cfg rng t s h]
    exact hnd

theorem eatPowerUp_nodup (cfg : GameConfig) (rng : Rng) (pu : PowerUp)
    (t : Position) (s : Engine) (hne : snakeGrow s.segments t ≠ [])
    (hnd : (snakeGrow s.segments t).Nodup) :
    (eatPowerUp cfg rng pu t s).segments.Nodup := by
  rw [eatPowerUp]
  split
  · exact applyStrategy_nodup cfg rng pu.type _ hne hnd
  · exact applyStrategy_nodup cfg rng pu.type _ hne hnd

/-! Concrete fixtures: a 10×10 board with the default game settings, a
draw oracle, and engine states used by the evaluation theorems. -/

/-- A 10×10 board with the default game settings (score-per-apple 5,
expanded range 1, easy tick period 1000) and every power-up disabled. -/
def cfgBase : GameConfig :=
  { width := 10, height := 10, scorePerApple := 5, expandedRange := 1,
    backgroundIcon := "bg", updateTime := 1000,
    powerUps :=
      [ (PowerUpType.magnet, { enabled := false, duration := 2000 }),
        (PowerUpType.slowMotion, { enabled := false, duration := 2000 }),
        (PowerUpType.bonus, { enabled := false, duration := 2000 }),
        (PowerUpType.invincibility, { enabled := false, duration := 3000 }),
        (PowerUpType.boost, { enabled := false, duration := 2500 }),
        (PowerUpType.teleport, { enabled := false, duration := 0 }),
        (PowerUpType.freeze, { enabled := false, duration := 1500 }) ] }

/-- Draw oracle whose apple draws land on `(0, 0)`, whose probability rolls
all fail, and whose other candidate streams are empty. -/
def rngBase : Rng :=
  { appleCands := [(0, 0)], appleFallback := [(0, 0)],
    rolls := fun _ => false, spawnCands := fun _ => [], teleportCands := [] }

/-- A running state whose next move drives the head onto the snake's second
segment: head `(2, 2)` heading up onto `(2, 1)`. -/
def collisionState : Engine :=
  { segments := [(2, 2), (2, 1), (3, 1), (3, 2)], direction := (0, -1),
    apple := (9, 9), boardPowerUps := [],
    store := { snake := [(2, 2), (2, 1), (3, 1), (3, 2)], apple := (9, 9),
               score := 0, powerUps := [], isGameOver := false, isPaused := false,
               activePowerUps := [] },
    range := false, backgroundIcon := "bg", scorePerApple := 5, updateTime := 1000,
    invincibilityActive := false, gameFrozen := false,
    gameInterval := some (Job.update, 1000), blinkRunning := true,
    effectTimeouts := 0 }

/-- A plain running state: single segment at `(5, 5)` heading up, apple far
away at `(9, 9)`, no power-ups. -/
def runningState : Engine :=
  { segments := [(5, 5)], direction := (0, -1), apple := (9, 9),
    boardPowerUps := [],
    store := { snake := [(5, 5)], apple := (9, 9), score := 0, powerUps := [],
               isGameOver := false, isPaused := false, activePowerUps := [] },
    range := false, backgroundIcon := "bg", scorePerApple := 5, updateTime := 1000,
    invincibilityActive := false, gameFrozen := false,
    gameInterval := some (Job.update, 1000), blinkRunning := true,
    effectTimeouts := 0 }

/-- The running state with the frozen flag set. -/
def frozenState : Engine :=
  { runningState with gameFrozen := true }

/-- A running state whose next head cell `(5, 4)` holds both the apple and a
magnet power-up (a coincidence the spawner permits, since new power-up draws
never exclude the freshly respawned apple cell). -/
def overlapState : Engine :=
  { segments := [(5, 5)], direction := (0, -1), apple := (5, 4),
    boardPowerUps := [⟨(5, 4), PowerUpType.magnet⟩],
    store := { snake := [(5, 5)], apple := (5, 4), score := 0,
               powerUps := [⟨(5, 4), PowerUpType.magnet⟩], isGameOver := false,
               isPaused := false, activePowerUps := [] },
    range := false, backgroundIcon := "bg", scorePerApple := 5, updateTime := 1000,
    invincibilityActive := false, gameFrozen := false,
    gameInterval := some (Job.update, 1000), blinkRunning := true,
    effectTimeouts := 0 }

/-- Configuration for the teleport scenario: magnet and teleport enabled. -/
def cfgTele : GameConfig :=
  { cfgBase with powerUps :=
      [ (PowerUpType.magnet, { enabled := true, duration := 2000 }),
        (PowerUpType.teleport, { enabled := true, duration := 0 }) ] }

/-- Draw oracle for the teleport scenario: the apple respawns at `(0, 0)`,
the magnet roll succeeds and places its power-up at `(7, 7)`, and the
teleport draw also lands on `(7, 7)`. -/
def rngTele : Rng :=
  { appleCands := [(0, 0)], appleFallback := [(0, 0)],
    rolls := fun t => decide (t = PowerUpType.magnet),
    spawnCands := fun _ => [(7, 7)], teleportCands := [(7, 7)] }

/-- A running state whose next head cell `(5, 4)` holds both the apple and a
teleport power-up, with the store snapshot in sync with the board. -/
def teleportTickState : Engine :=
  { segments := [(5, 5)], direction := (0, -1), apple := (5, 4),
    boardPowerUps := [⟨(5, 4), PowerUpType.teleport⟩],
    store := { snake := [(5, 5)], apple := (5, 4), score := 0,
               powerUps := [⟨(5, 4), PowerUpType.teleport⟩], isGameOver := false,
               isPaused := false, activePowerUps := [] },
    range := false, backgroundIcon := "bg", scorePerApple := 5, updateTime := 1000,
    invincibilityActive := false, gameFrozen := false,
    gameInterval := some (Job.update, 1000), blinkRunning := true,
    effectTimeouts := 0 }

/-! Claim theorems. -/

/-- C1: on the self-collision tick with invincibility inactive the loop does
stop, but the stored state afterwards has `isGameOver = false` (and
`isPaused = true`), because `GameStateService.setGameOver` writes the
`isPaused` field; with invincibility active the identical collision causes
no game-over transition and the tick continues normally. This evaluates the
code at the claim's failing input and exhibits the divergence from the
claimed `isGameOver = true`. -/
theorem c1_selfCollision_tick_eval :
    ((update cfgBase rngBase collisionState).gameInterval = none ∧
     (update cfgBase rngBase collisionState).store.isGameOver = false ∧
     (update cfgBase rngBase collisionState).store.isPaused = true) ∧
    ((update cfgBase rngBase
        { collisionState with invincibilityActive := true }).store.isGameOver = false ∧
     (update cfgBase rngBase
        { collisionState with invincibilityActive := true }).store.isPaused = false ∧
     (update cfgBase rngBase
        { collisionState with invincibilityActive := true }).gameInterval =
        some (Job.update, 1000)) := by
  decide

/-- C2 counterexample: the claim fails for inputs below `-limit`; the JS
remainder keeps the dividend's sign, so `wrapPosition((-25, 0), 10, 10)`
returns `(-5, 0)`, outside `[0, 10)`. -/
theorem c2_wrap_counterexample :
    wrapPosition (-25, 0) 10 10 = (-5, 0) ∧
    ¬ 0 ≤ (wrapPosition (-25, 0) 10 10).1 := by
  decide

/-- C2 amended: for boards of width and height at least 1, `wrapPosition`
returns coordinates in `[0, w) × [0, h)` for every input with `x ≥ -w` and
`y ≥ -h` (which covers every on-board position and every unit step off the
board); below that the result can be negative. -/
theorem c2_wrapPosition_in_bounds (w h x y : Int) (hw : 1 ≤ w) (hh : 1 ≤ h)
    (hx : -w ≤ x) (hy : -h ≤ y) :
    0 ≤ (wrapPosition (x, y) w h).1 ∧ (wrapPosition (x, y) w h).1 < w ∧
    0 ≤ (wrapPosition (x, y) w h).2 ∧ (wrapPosition (x, y) w h).2 < h := by
  have hxw : 0 ≤ x + w := by omega
  have hyh : 0 ≤ y + h := by omega
  exact ⟨Int.tmod_nonneg w hxw, Int.tmod_lt_of_pos (x + w) (by omega),
    Int.tmod_nonneg h hyh, Int.tmod_lt_of_pos (y + h) (by omega)⟩

theorem c2_witness :
    0 ≤ (wrapPosition (-1, 9) 10 10).1 ∧ (wrapPosition (-1, 9) 10 10).1 < 10 ∧
    0 ≤ (wrapPosition (-1, 9) 10 10).2 ∧ (wrapPosition (-1, 9) 10 10).2 < 10 :=
  c2_wrapPosition_in_bounds 10 10 (-1) 9 (by decide) (by decide) (by decide) (by decide)

/-- C6: while the frozen flag is set a tick performs no simulation at all
(the engine state is returned unchanged; rendering is pure output), and a
state with the flag clear simulates again — the concrete unfrozen state
moves its snake from `(5, 5)` to `(5, 4)`. -/
theorem c6_frozen_tick_no_simulation :
    (∀ (cfg : GameConfig) (rng : Rng) (s : Engine),
        s.gameFrozen = true → update cfg rng s = s) ∧
    ((update cfgBase rngBase runningState).segments = [(5, 4)] ∧
     runningState.segments = [(5, 5)] ∧ runningState.gameFrozen = false) := by
  constructor
  · intro cfg rng s h
    simp [update, h]
  · exact ⟨by decide, by decide, rfl⟩

theorem c6_witness : update cfgBase rngBase frozenState = frozenState :=
  c6_frozen_tick_no_simulation.1 cfgBase rngBase frozenState rfl

/-- C7: the manager's tracked set always has pairwise-distinct types: the
invariant holds for the empty initial list, is preserved by `addPowerUp`
(a no-op when the type is already tracked), by `removePowerUp` and by
`clearAllPowerUps`, and it bounds the tracked instances of any type by 1. -/
theorem c7_powerUpManager_unique_types :
    uniqueTypes [] ∧
    (∀ (l : List PowerUp) (p : PowerUp),
        uniqueTypes l → uniqueTypes (addPowerUp l p)) ∧
    (∀ (l : List PowerUp) (t : PowerUpType),
        uniqueTypes l → uniqueTypes (removePowerUp l t)) ∧
    (∀ l : List PowerUp, uniqueTypes (clearAllPowerUps l)) ∧
    (∀ (l : List PowerUp) (t : PowerUpType), uniqueTypes l →
        (l.filter fun p => decide (p.type = t)).length ≤ 1) := by
  refine ⟨List.nodup_nil, ?_, ?_, fun l => List.nodup_nil, ?_⟩
  · intro l p hl
    rw [addPowerUp]
    split
    · exact hl
    next hany =>
      have hnotin : p.type ∉ l.map PowerUp.type := by
        intro hmem
        apply hany
        rw [List.any_eq_true]
        obtain ⟨q, hq, hqt⟩ := List.mem_map.mp hmem
        exact ⟨q, hq, by simp [hqt]⟩
      rw [uniqueTypes, List.map_append]
      exact List.nodup_append.mpr
        ⟨hl, List.nodup_singleton _, List.disjoint_singleton.mpr hnotin⟩
  · intro l t hl
    exact ((List.eraseP_sublist l).map PowerUp.type).nodup hl
  · intro l t
    induction l with
    | nil => intro _; simp
    | cons a rest ih =>
      intro hl
      rw [uniqueTypes, List.map_cons, List.nodup_cons] at hl
      by_cases ht : a.type = t
      · rw [List.filter_cons_of_pos (by simp [ht])]
        have hrest : rest.filter (fun p => decide (p.type = t)) = [] := by
          rw [List.filter_eq_nil_iff]
          intro q hq
          simp only [decide_eq_true_eq]
          intro hqt
          exact hl.1 (List.mem_map.mpr ⟨q, hq, hqt.trans ht.symm⟩)
        simp [hrest]
      · rw [List.filter_cons_of_neg (by simp [ht])]
        exact ih hl.2

theorem c7_witness :
    uniqueTypes (addPowerUp [⟨(1, 1), PowerUpType.magnet⟩] ⟨(2, 2), PowerUpType.freeze⟩) :=
  c7_powerUpManager_unique_types.2.1 [⟨(1, 1), PowerUpType.magnet⟩]
    ⟨(2, 2), PowerUpType.freeze⟩ (by unfold uniqueTypes; decide)

/-- C8: the bounded-retry sampler never returns an occupied cell — it
yields either a position outside the occupied set or the `none` sentinel;
consequently an apple respawn that adopts a non-null validator result, and
every power-up placed by the spawner, selects a cell outside the supplied
occupied set. -/
theorem c8_generateValidPosition_never_occupied :
    (∀ (occ : List Position) (n : Nat) (cands : List Position) (p : Position),
        generateValidPosition occ n cands = some p → p ∉ occ) ∧
    (∀ (cfg : GameConfig) (rng : Rng) (occ : List Position) (p : Position),
        generateValidPosition occ (boardCells cfg) rng.appleCands = some p →
        appleRespawn cfg rng occ = p ∧ p ∉ occ) ∧
    (∀ (cfg : GameConfig) (rng : Rng) (occ : List Position) (pu : PowerUp),
        pu ∈ generateRandomPowerUps cfg rng cfg.powerUps occ →
        pu.position ∉ occ) := by
  refine ⟨fun occ n cands p h => generateValidPosition_not_mem h, ?_, ?_⟩
  · intro cfg rng occ p h
    refine ⟨?_, generateValidPosition_not_mem h⟩
    rw [appleRespawn, h]
  · intro cfg rng occ pu h
    exact generateRandomPowerUps_position_not_mem cfg rng cfg.powerUps occ pu h

theorem c8_witness :
    generateValidPosition [(0, 0)] 3 [(0, 0), (1, 1)] = some (1, 1) ∧
    ((1, 1) : Position) ∉ [((0, 0) : Position)] :=
  ⟨by decide,
   c8_generateValidPosition_never_occupied.1 [(0, 0)] 3 [(0, 0), (1, 1)] (1, 1) (by decide)⟩

/-- C9: `setDirection` keeps the current direction exactly when the new
direction is the componentwise negation of the current one and the snake
has more than one segment; with at most one segment, or with any
non-reversal direction, the new direction is adopted. -/
theorem c9_setDirection_reversal_policy :
    (∀ (segs : List Position) (cur d : Position),
        1 < segs.length → d = (-cur.1, -cur.2) →
        snakeSetDirection segs cur d = cur) ∧
    (∀ (segs : List Position) (cur d : Position),
        segs.length ≤ 1 → snakeSetDirection segs cur d = d) ∧
    (∀ (segs : List Position) (cur d : Position),
        d ≠ (-cur.1, -cur.2) → snakeSetDirection segs cur d = d) := by
  refine ⟨?_, ?_, ?_⟩
  · intro segs cur d hlen hd
    have hc : (decide (segs.length > 1) && positionsEqual d (-cur.1, -cur.2)) = true := by
      rw [Bool.and_eq_true, decide_eq_true_eq]
      exact ⟨hlen, positionsEqual_iff.mpr hd⟩
    rw [snakeSetDirection, if_pos hc]
  · intro segs cur d hlen
    have hc : (decide (segs.length > 1) && positionsEqual d (-cur.1, -cur.2)) = false := by
      have h1 : decide (segs.length > 1) = false := by
        simp only [decide_eq_false_iff_not]
        omega
      rw [h1, Bool.false_and]
    rw [snakeSetDirection, hc]
    simp
  · intro segs cur d hne
    have h2 : positionsEqual d (-cur.1, -cur.2) = false :=
      Bool.eq_false_iff.mpr fun hc => hne (positionsEqual_iff.mp hc)
    rw [snakeSetDirection, h2, Bool.and_false]
    simp

theorem c9_witness :
    snakeSetDirection [(0, 0), (0, 1)] (0, -1) (0, 1) = (0, -1) ∧
    snakeSetDirection [(0, 0)] (0, -1) (0, 1) = (0, 1) :=
  ⟨c9_setDirection_reversal_policy.1 [(0, 0), (0, 1)] (0, -1) (0, 1)
      (by decide) (by decide),
   c9_setDirection_reversal_policy.2.1 [(0, 0)] (0, -1) (0, 1) (by decide)⟩

/-- C10: the power-up context's `setInterval(callback, time)` never
schedules the supplied callback: the result is independent of the callback,
the scheduled routine is always the engine's own `update` at the given
period (with the current update time synced), and in particular the
slow-motion strategy's no-op-callback call keeps `update` ticking at the
slowed period. -/
theorem c10_setInterval_schedules_engine_update :
    (∀ (f g : Job) (t : Int) (s : Engine),
        ctxSetInterval f t s = ctxSetInterval g t s) ∧
    (∀ (f : Job) (t : Int) (s : Engine),
        (ctxSetInterval f t s).gameInterval = some (Job.update, t) ∧
        (ctxSetInterval f t s).updateTime = t) ∧
    (∀ (cfg : GameConfig) (rng : Rng) (s : Engine),
        (applyStrategy cfg rng PowerUpType.slowMotion s).gameInterval =
          some (Job.update, s.updateTime + 200) ∧
        (applyStrategy cfg rng PowerUpType.slowMotion s).updateTime =
          s.updateTime + 200) :=
  ⟨fun _ _ _ _ => rfl, fun _ _ _ => ⟨rfl, rfl⟩, fun _ _ _ => ⟨rfl, rfl⟩⟩

/-- C4 counterexample: in a tick that eats the apple and a teleport
power-up together, the apple-eat spawns a magnet power-up at `(7, 7)`
(board list), but `teleportSnake` validates against the store's snapshot
power-up list, which has not been republished yet — so the head is
relocated exactly onto the on-board magnet power-up at `(7, 7)`. -/
theorem c4_teleport_counterexample :
    snakeHead (update cfgTele rngTele teleportTickState).segments = (7, 7) ∧
    (⟨(7, 7), PowerUpType.magnet⟩ : PowerUp) ∈
      (update cfgTele rngTele teleportTickState).boardPowerUps ∧
    snakeHead teleportTickState.segments = (5, 5) := by
  decide

/-- C4 amended: `teleportSnake` never faults — it leaves every non-head
segment unchanged, and the head either keeps its current position (when no
free cell is found within the attempt bound) or is relocated to a cell not
occupied by any snake segment, the apple, or any power-up recorded in the
last published state snapshot (power-ups added to the board during the
current tick are not excluded). -/
theorem c4_teleport_head_relocation (cfg : GameConfig) (rng : Rng) (s : Engine)
    (hne : s.segments ≠ []) :
    (teleportSnake cfg rng s).segments.tail = s.segments.tail ∧
    (snakeHead (teleportSnake cfg rng s).segments = snakeHead s.segments ∨
      (snakeHead (teleportSnake cfg rng s).segments ∉ s.segments ∧
       snakeHead (teleportSnake cfg rng s).segments ≠ s.apple ∧
       ∀ pu ∈ s.store.powerUps,
         snakeHead (teleportSnake cfg rng s).segments ≠ pu.position)) := by
  rcases teleportSnake_segments cfg rng s hne with h | ⟨p, hseg, hp1, hp2, hp3⟩
  · rw [h]
    exact ⟨rfl, Or.inl rfl⟩
  · rw [hseg]
    exact ⟨rfl, Or.inr ⟨hp1, hp2, hp3⟩⟩

theorem c4_witness :
    (teleportSnake cfgBase rngBase runningState).segments.tail =
      runningState.segments.tail :=
  (c4_teleport_head_relocation cfgBase rngBase runningState (by decide)).1

/-- C5 counterexample: `restart` does not clear the in-effect invincibility
and freeze flags — restarting an engine whose flags are set leaves both
effects in force, so the claim that all active (in-effect) power-up effects
are cleared fails. -/
theorem c5_restart_counterexample :
    (restart cfgBase rngBase
      { runningState with invincibilityActive := true, gameFrozen := true }).invincibilityActive = true ∧
    (restart cfgBase rngBase
      { runningState with invincibilityActive := true, gameFrozen := true }).gameFrozen = true := by
  decide

/-- C5 amended: `restart` stops the tick and blink timers, resets the snake
to the board center heading up, respawns the apple avoiding the snake (when
the validator finds a free cell), clears the on-board power-ups and the
store (score 0, not paused, not game-over, no active-effect records), resets
the range policy, background glyph and score-per-apple to the config
defaults, and re-enters the running state with the loop scheduled at the
current update time; the invincibility and frozen flags, the tick period,
and the pending effect-expiry timeouts are left untouched. -/
theorem c5_restart_resets (cfg : GameConfig) (rng : Rng) (s : Engine) (p : Position)
    (hp : generateValidPosition [getCenter cfg] (boardCells cfg) rng.appleCands = some p) :
    (restart cfg rng s).segments = [getCenter cfg] ∧
    (restart cfg rng s).direction = (0, -1) ∧
    (restart cfg rng s).apple = p ∧
    p ≠ getCenter cfg ∧
    (restart cfg rng s).boardPowerUps = [] ∧
    (restart cfg rng s).store = stateReset [getCenter cfg] p ∧
    (restart cfg rng s).range = false ∧
    (restart cfg rng s).backgroundIcon = cfg.backgroundIcon ∧
    (restart cfg rng s).scorePerApple = cfg.scorePerApple ∧
    (restart cfg rng s).gameInterval = some (Job.update, s.updateTime) ∧
    (restart cfg rng s).blinkRunning = true ∧
    (restart cfg rng s).invincibilityActive = s.invincibilityActive ∧
    (restart cfg rng s).gameFrozen = s.gameFrozen ∧
    (restart cfg rng s).updateTime = s.updateTime ∧
    (restart cfg rng s).effectTimeouts = s.effectTimeouts := by
  have happle : appleRespawn cfg rng [getCenter cfg] = p := by
    rw [appleRespawn, hp]
  have hpc : p ≠ getCenter cfg := by
    have := generateValidPosition_not_mem hp
    simpa using this
  refine ⟨rfl, rfl, happle, hpc, rfl, ?_, rfl, rfl, rfl, rfl, rfl, rfl, rfl, rfl, rfl⟩
  show stateReset [getCenter cfg] (appleRespawn cfg rng [getCenter cfg]) =
    stateReset [getCenter cfg] p
  rw [happle]

theorem c5_witness :
    (restart cfgBase rngBase runningState).segments = [getCenter cfgBase] ∧
    (restart cfgBase rngBase runningState).invincibilityActive =
      runningState.invincibilityActive :=
  ⟨(c5_restart_resets cfgBase rngBase runningState (0, 0) (by decide)).1,
   (c5_restart_resets cfgBase rngBase runningState (0, 0) (by decide)).2.2.2.2.2.2.2.2.2.2.2.1⟩

theorem snakeHead_mem {l : List Position} (h : l ≠ []) : snakeHead l ∈ l := by
  cases l with
  | nil => exact absurd rfl h
  | cons a t => exact List.mem_cons_self a t

/-- Core duplicate-freedom lemma for the eating block: starting from a moved,
duplicate-free snake whose grow-by-tail result is also duplicate-free, and
whose head cell holds no board power-up whenever the apple is in range, the
eating block leaves the segment list (and the published snapshot)
duplicate-free. -/
theorem tickEat_nodup (cfg : GameConfig) (rng : Rng) (tl : Position) (s₀ : Engine)
    (hseg : s₀.segments ≠ []) (hnd₀ : s₀.segments.Nodup)
    (hgrownodup : (snakeGrow s₀.segments tl).Nodup)
    (hsafe : engineInRange cfg s₀.range (snakeHead s₀.segments) s₀.apple = true →
        ∀ pu ∈ s₀.boardPowerUps, pu.position ≠ snakeHead s₀.segments) :
    (tickEat cfg rng tl s₀).segments.Nodup ∧
    (tickEat cfg rng tl s₀).store.snake.Nodup := by
  simp only [tickEat]
  by_cases happle : engineInRange cfg s₀.range (snakeHead s₀.segments) s₀.apple = true
  · rw [if_pos happle]
    have hfind : findPowerUpAtPosition (eatApple cfg rng tl s₀).boardPowerUps
        (snakeHead s₀.segments) = none := by
      apply findPowerUpAtPosition_eq_none
      intro pu hpu
      have hpu' : pu ∈ (generateRandomPowerUps cfg rng cfg.powerUps
          (snakeGrow s₀.segments tl ++ s₀.boardPowerUps.map PowerUp.position)).foldl
          addPowerUp s₀.boardPowerUps := hpu
      rcases mem_foldl_addPowerUp _ _ _ hpu' with hbase | hnew
      · exact hsafe happle pu hbase
      · intro hpos
        have hnot := generateRandomPowerUps_position_not_mem cfg rng cfg.powerUps
          (snakeGrow s₀.segments tl ++ s₀.boardPowerUps.map PowerUp.position) pu hnew
        apply hnot
        rw [hpos]
        show snakeHead s₀.segments ∈
          (s₀.segments ++ [tl]) ++ s₀.boardPowerUps.map PowerUp.position
        exact List.mem_append.mpr (Or.inl (List.mem_append.mpr (Or.inl (snakeHead_mem hseg))))
    simp only [hfind]
    exact ⟨hgrownodup, hgrownodup⟩
  · rw [if_neg happle]
    cases hfind : findPowerUpAtPosition s₀.boardPowerUps (snakeHead s₀.segments) with
    | none =>
      simp only [hfind]
      exact ⟨hnd₀, hnd₀⟩
    | some pu =>
      simp only [hfind]
      by_cases hin : engineInRange cfg s₀.range (snakeHead s₀.segments) pu.position = true
      · rw [if_pos hin]
        have h1 : snakeGrow s₀.segments tl ≠ [] := by
          simp [snakeGrow]
        exact ⟨eatPowerUp_nodup cfg rng pu tl s₀ h1 hgrownodup,
               eatPowerUp_nodup cfg rng pu tl s₀ h1 hgrownodup⟩
      · rw [if_neg hin]
        exact ⟨hnd₀, hnd₀⟩

/-- C3 counterexample: a tick in which the apple and a power-up are both
eaten appends the vacated tail twice: from the single-segment snake at
`(5, 5)` moving onto `(5, 4)` (holding both the apple and a magnet), the
post-tick segment list is `[(5, 4), (5, 5), (5, 5)]` — a duplicated
position — while the tick reports no self-collision (score and range
confirm both items were eaten, and the loop keeps running). -/
theorem c3_double_eat_counterexample :
    ¬ (update cfgBase rngBase overlapState).segments.Nodup ∧
    (update cfgBase rngBase overlapState).segments = [(5, 4), (5, 5), (5, 5)] ∧
    (update cfgBase rngBase overlapState).store.score = 5 ∧
    (update cfgBase rngBase overlapState).range = true ∧
    (update cfgBase rngBase overlapState).store.isPaused = false ∧
    (update cfgBase rngBase overlapState).gameInterval = some (Job.update, 1000) := by
  decide

/-- C3 amended: a completed tick leaves the snake's segment list free of
duplicate positions provided the pre-tick list was duplicate-free, the
post-move head cell was not occupied by the pre-move snake (so no
self-collision is reported and the head did not re-enter the just-vacated
tail cell), and the tick does not eat the apple and a power-up together; a
tick that eats both appends the vacated tail twice and duplicates it. -/
theorem c3_single_eat_no_duplicates (cfg : GameConfig) (rng : Rng) (s : Engine)
    (hpause : s.store.isPaused = false) (hover : s.store.isGameOver = false)
    (hfrozen : s.gameFrozen = false)
    (hne : s.segments ≠ []) (hnd : s.segments.Nodup)
    (hhead : tickHeadTarget s.segments s.direction cfg.width cfg.height ∉ s.segments)
    (hone : ¬ (engineInRange cfg s.range
          (tickHeadTarget s.segments s.direction cfg.width cfg.height) s.apple = true ∧
        ∃ pu ∈ s.boardPowerUps,
          pu.position = tickHeadTarget s.segments s.direction cfg.width cfg.height)) :
    (update cfg rng s).segments.Nodup ∧ (update cfg rng s).store.snake.Nodup := by
  have hupd : update cfg rng s = tickSimulate cfg rng s := by
    simp [update, hpause, hover, hfrozen]
  have hcol : checkSelfCollision
      (movedSegments s.segments s.direction cfg.width cfg.height) = false :=
    checkSelfCollision_moved_false s.segments s.direction cfg.width cfg.height hne hhead
  have hsim : tickSimulate cfg rng s =
      tickEat cfg rng (vacatedTail s.segments s.direction cfg.width cfg.height)
        { s with segments := movedSegments s.segments s.direction cfg.width cfg.height } := by
    simp [tickSimulate, hcol]
  have hmv : movedSegments s.segments s.direction cfg.width cfg.height ≠ [] := by
    rw [movedSegments_eq _ _ _ _ hne]
    exact List.cons_ne_nil _ _
  have hndmv : (movedSegments s.segments s.direction cfg.width cfg.height).Nodup := by
    rw [movedSegments_eq _ _ _ _ hne]
    refine List.nodup_cons.mpr ⟨?_, (List.dropLast_sublist s.segments).nodup hnd⟩
    exact fun hmem => hhead ((List.dropLast_sublist s.segments).subset hmem)
  have hgrownd : (snakeGrow (movedSegments s.segments s.direction cfg.width cfg.height)
      (vacatedTail s.segments s.direction cfg.width cfg.height)).Nodup := by
    rw [grow_moved_eq]
    exact List.nodup_cons.mpr ⟨hhead, hnd⟩
  rw [hupd, hsim]
  apply tickEat_nodup
  · exact hmv
  · exact hndmv
  · exact hgrownd
  · intro hr pu hpu hpos
    have hr' : engineInRange cfg s.range
        (tickHeadTarget s.segments s.direction cfg.width cfg.height) s.apple = true := by
      rw [← snakeHead_movedSegments s.segments s.direction cfg.width cfg.height hne]
      exact hr
    have hpos' : pu.position =
        tickHeadTarget s.segments s.direction cfg.width cfg.height := by
      rw [← snakeHead_movedSegments s.segments s.direction cfg.width cfg.height hne]
      exact hpos
    exact hone ⟨hr', pu, hpu, hpos'⟩

theorem c3_witness :
    (update cfgBase rngBase runningState).segments.Nodup ∧
    (update cfgBase rngBase runningState).store.snake.Nodup :=
  c3_single_eat_no_duplicates cfgBase rngBase runningState rfl rfl rfl
    (by decide) (by decide) (by decide) (by decide)

end TypeSnake
